import Mathlib

/-!
Verification of the Gaussian-kernel speed-profile core of the
madras-data-app repository (file src/helpers/speed_profile.py), as a
shallow embedding over the reals.

Floating-point numbers of the source are modelled as real numbers; numpy
arrays as lists; pandas data frames as lists of rows; exceptions raised by
the Python runtime as an explicit error type threaded through Except.
-/

namespace MadrasSpeedProfile

/-- One row of the trajectory dataset: frame identifier and the agent's
position and speed (columns frame, x, y, speed consumed by the source). -/
structure Row where
  frame : ℤ
  x : ℝ
  y : ℝ
  speed : ℝ

/-- Embedding of the function compute_gaussian_weights of the source:
sigma is derived from the full width at half maximum and the Gaussian
density is evaluated at x. -/
noncomputable def compute_gaussian_weights (x : ℝ) (fwhm : ℝ) : ℝ :=
  let sigma := fwhm / (2 * Real.sqrt (2 * Real.log 2))
  1 / (sigma * Real.sqrt (2 * Real.pi)) * Real.exp (-(x ^ 2) / (2 * sigma ^ 2))

/-- Raw Gaussian weight of one row relative to a grid-cell center, the
Euclidean distance fed into the Gaussian density, as computed inside
compute_gaussian_weighted_speed_profile of the source. -/
noncomputable def rowWeight (cx cy fwhm : ℝ) (r : Row) : ℝ :=
  compute_gaussian_weights (Real.sqrt ((cx - r.x) ^ 2 + (cy - r.y) ^ 2)) fwhm

/-- Sum of the raw Gaussian weights of a frame at one cell (the
normalization denominator np.sum(weights, axis=2) of the source). -/
noncomputable def weightSum (cx cy fwhm : ℝ) (frame_data : List Row) : ℝ :=
  (frame_data.map (rowWeight cx cy fwhm)).sum

/-- Normalized per-agent weight at one cell: the raw weight divided by the
per-cell weight sum (weights / np.sum(weights, axis=2) in the source). -/
noncomputable def normalizedWeight (cx cy fwhm : ℝ) (frame_data : List Row) (r : Row) : ℝ :=
  rowWeight cx cy fwhm r / weightSum cx cy fwhm frame_data

/-- Value of one output cell: the normalized-weight-weighted sum of the
agent speeds (the tensordot of the source). -/
noncomputable def cellValue (cx cy fwhm : ℝ) (frame_data : List Row) : ℝ :=
  (frame_data.map fun r => normalizedWeight cx cy fwhm frame_data r * r.speed).sum

/-- Embedding of compute_gaussian_weighted_speed_profile of the source:
the transposed weighted-speed grid, one row of the output per center-y
value and one column per center-x value. -/
noncomputable def compute_gaussian_weighted_speed_profile
    (frame_data : List Row) (center_x center_y : List ℝ) (fwhm : ℝ) : List (List ℝ) :=
  center_y.map fun cy => center_x.map fun cx => cellValue cx cy fwhm frame_data

/-! Basic facts about the Gaussian weight. -/

theorem sqrt_two_log_two_pos : 0 < Real.sqrt (2 * Real.log 2) :=
  Real.sqrt_pos.mpr (by positivity)

theorem compute_gaussian_weights_pos (x : ℝ) {fwhm : ℝ} (h : 0 < fwhm) :
    0 < compute_gaussian_weights x fwhm := by
  unfold compute_gaussian_weights
  have hs : 0 < fwhm / (2 * Real.sqrt (2 * Real.log 2)) :=
    div_pos h (by positivity)
  positivity

theorem compute_gaussian_weights_ne_zero (x : ℝ) {fwhm : ℝ} (h : fwhm ≠ 0) :
    compute_gaussian_weights x fwhm ≠ 0 := by
  unfold compute_gaussian_weights
  have hs : fwhm / (2 * Real.sqrt (2 * Real.log 2)) ≠ 0 :=
    div_ne_zero h (by positivity)
  have hsp : Real.sqrt (2 * Real.pi) ≠ 0 := by positivity
  have hexp : Real.exp (-(x ^ 2) /
      (2 * (fwhm / (2 * Real.sqrt (2 * Real.log 2))) ^ 2)) ≠ 0 :=
    Real.exp_ne_zero _
  exact mul_ne_zero (one_div_ne_zero (mul_ne_zero hs hsp)) hexp

theorem rowWeight_pos (cx cy : ℝ) {fwhm : ℝ} (h : 0 < fwhm) (r : Row) :
    0 < rowWeight cx cy fwhm r :=
  compute_gaussian_weights_pos _ h

theorem rowWeight_ne_zero (cx cy : ℝ) {fwhm : ℝ} (h : fwhm ≠ 0) (r : Row) :
    rowWeight cx cy fwhm r ≠ 0 :=
  compute_gaussian_weights_ne_zero _ h

theorem weightSum_pos (cx cy : ℝ) {fwhm : ℝ} (h : 0 < fwhm)
    {frame_data : List Row} (hne : frame_data ≠ []) :
    0 < weightSum cx cy fwhm frame_data := by
  apply List.sum_pos
  · intro a ha
    obtain ⟨r, _, rfl⟩ := List.mem_map.mp ha
    exact rowWeight_pos cx cy h r
  · simpa using hne

/-- Shared helper: with a nonzero weight sum the normalized weights of a
cell sum to one. -/
theorem normalizedWeight_sum_eq_one (cx cy fwhm : ℝ) {frame_data : List Row}
    (hS : weightSum cx cy fwhm frame_data ≠ 0) :
    (frame_data.map (normalizedWeight cx cy fwhm frame_data)).sum = 1 := by
  unfold normalizedWeight
  simp only [div_eq_mul_inv]
  rw [List.sum_map_mul_right]
  exact mul_inv_cancel₀ hS

/-- Shared helper: for a single agent the normalized weight is one and the
cell value is exactly that agent's speed, for every nonzero fwhm. -/
theorem cellValue_single (cx cy : ℝ) {fwhm : ℝ} (h : fwhm ≠ 0) (r : Row) :
    cellValue cx cy fwhm [r] = r.speed := by
  have hw : rowWeight cx cy fwhm r ≠ 0 := rowWeight_ne_zero cx cy h r
  simp [cellValue, normalizedWeight, weightSum, div_self hw]

/-- Shared helper: the per-cell weight sum is invariant under permutations
of the frame rows. -/
theorem weightSum_perm (cx cy fwhm : ℝ) {l₁ l₂ : List Row} (hp : l₁.Perm l₂) :
    weightSum cx cy fwhm l₁ = weightSum cx cy fwhm l₂ :=
  (hp.map _).sum_eq

/-- Shared helper: the value of a cell is invariant under permutations of
the frame rows. -/
theorem cellValue_perm (cx cy fwhm : ℝ) {l₁ l₂ : List Row} (hp : l₁.Perm l₂) :
    cellValue cx cy fwhm l₁ = cellValue cx cy fwhm l₂ := by
  unfold cellValue normalizedWeight
  rw [weightSum_perm cx cy fwhm hp]
  exact (hp.map _).sum_eq

/-- C3: for every frame with at least one agent and a positive fwhm (over
the reals every Gaussian weight is then nonzero and finite), the normalized
per-agent weights of each cell sum to one, forming a convex combination. -/
theorem C3_normalized_weights_sum_to_one (cx cy fwhm : ℝ) (frame_data : List Row)
    (hne : frame_data ≠ []) (hf : 0 < fwhm) :
    (frame_data.map (normalizedWeight cx cy fwhm frame_data)).sum = 1 :=
  normalizedWeight_sum_eq_one cx cy fwhm (weightSum_pos cx cy hf hne).ne'

/-- Witness for C3 at a concrete one-agent frame. -/
theorem C3_witness :
    (([⟨0, 0, 0, 1⟩] : List Row).map
      (normalizedWeight 0 0 1 [⟨0, 0, 0, 1⟩])).sum = 1 :=
  C3_normalized_weights_sum_to_one 0 0 1 [⟨0, 0, 0, 1⟩] (by simp) (by norm_num)

/-- C7: a frame with exactly one agent located at a cell center yields that
agent's speed exactly as the output of the kernel engine at that cell, for
every positive fwhm. -/
theorem C7_single_agent_exact (cx cy fwhm : ℝ) (r : Row)
    (hx : r.x = cx) (hy : r.y = cy) (hf : 0 < fwhm) :
    compute_gaussian_weighted_speed_profile [r] [cx] [cy] fwhm = [[r.speed]] := by
  simp [compute_gaussian_weighted_speed_profile, cellValue_single cx cy hf.ne' r]

/-- Witness for C7 at a concrete agent sitting on the cell center. -/
theorem C7_witness :
    compute_gaussian_weighted_speed_profile [⟨0, 1/2, 1/2, 3⟩] [1/2] [1/2] 1 =
      [[(3 : ℝ)]] :=
  C7_single_agent_exact (1/2) (1/2) 1 ⟨0, 1/2, 1/2, 3⟩ rfl rfl (by norm_num)

/-- C8: applying any permutation to the agent rows of a frame leaves the
output grid of the kernel weighting engine unchanged. -/
theorem C8_agent_order_invariant (frame_data₁ frame_data₂ : List Row)
    (center_x center_y : List ℝ) (fwhm : ℝ) (hp : frame_data₁.Perm frame_data₂) :
    compute_gaussian_weighted_speed_profile frame_data₁ center_x center_y fwhm =
      compute_gaussian_weighted_speed_profile frame_data₂ center_x center_y fwhm := by
  unfold compute_gaussian_weighted_speed_profile
  have h : ∀ cy cx : ℝ, cellValue cx cy fwhm frame_data₁ = cellValue cx cy fwhm frame_data₂ :=
    fun cy cx => cellValue_perm cx cy fwhm hp
  simp only [h]

/-- Witness for C8: swapping two concrete agents. -/
theorem C8_witness :
    compute_gaussian_weighted_speed_profile
        [⟨0, 0, 0, 1⟩, ⟨0, 1, 1, 2⟩] [0] [0] 1 =
      compute_gaussian_weighted_speed_profile
        [⟨0, 1, 1, 2⟩, ⟨0, 0, 0, 1⟩] [0] [0] 1 :=
  C8_agent_order_invariant _ _ [0] [0] 1 (List.Perm.swap _ _ _)

/-- C10: with at least one agent and a positive fwhm (nonzero finite weight
sum over the reals), each cell value lies between the minimum and the
maximum of the speeds of the frame. -/
theorem C10_cell_value_between_min_and_max (cx cy fwhm m M : ℝ) (frame_data : List Row)
    (hf : 0 < fwhm)
    (hmem : m ∈ frame_data.map Row.speed) (hmin : ∀ s ∈ frame_data.map Row.speed, m ≤ s)
    (hMem : M ∈ frame_data.map Row.speed) (hMax : ∀ s ∈ frame_data.map Row.speed, s ≤ M) :
    m ≤ cellValue cx cy fwhm frame_data ∧ cellValue cx cy fwhm frame_data ≤ M := by
  have hne : frame_data ≠ [] := by
    rintro rfl
    simp at hmem
  have hS : 0 < weightSum cx cy fwhm frame_data := weightSum_pos cx cy hf hne
  have hsum1 : (frame_data.map (normalizedWeight cx cy fwhm frame_data)).sum = 1 :=
    normalizedWeight_sum_eq_one cx cy fwhm hS.ne'
  have hnw : ∀ r ∈ frame_data, 0 ≤ normalizedWeight cx cy fwhm frame_data r :=
    fun r _ => le_of_lt (div_pos (rowWeight_pos cx cy hf r) hS)
  constructor
  · calc m = (frame_data.map (normalizedWeight cx cy fwhm frame_data)).sum * m := by
          rw [hsum1, one_mul]
      _ = (frame_data.map fun r => normalizedWeight cx cy fwhm frame_data r * m).sum :=
          (List.sum_map_mul_right _ _ _).symm
      _ ≤ (frame_data.map fun r =>
            normalizedWeight cx cy fwhm frame_data r * r.speed).sum :=
          List.sum_le_sum fun r hr =>
            mul_le_mul_of_nonneg_left (hmin _ (List.mem_map_of_mem _ hr)) (hnw r hr)
      _ = cellValue cx cy fwhm frame_data := rfl
  · calc cellValue cx cy fwhm frame_data
        = (frame_data.map fun r =>
            normalizedWeight cx cy fwhm frame_data r * r.speed).sum := rfl
      _ ≤ (frame_data.map fun r => normalizedWeight cx cy fwhm frame_data r * M).sum :=
          List.sum_le_sum fun r hr =>
            mul_le_mul_of_nonneg_left (hMax _ (List.mem_map_of_mem _ hr)) (hnw r hr)
      _ = (frame_data.map (normalizedWeight cx cy fwhm frame_data)).sum * M :=
          List.sum_map_mul_right _ _ _
      _ = M := by rw [hsum1, one_mul]

/-- Witness for C10 at a concrete two-agent frame with speeds 1 and 2. -/
theorem C10_witness :
    1 ≤ cellValue 0 0 1 [⟨0, 0, 0, 1⟩, ⟨0, 1, 1, 2⟩] ∧
      cellValue 0 0 1 [⟨0, 0, 0, 1⟩, ⟨0, 1, 1, 2⟩] ≤ 2 :=
  C10_cell_value_between_min_and_max 0 0 1 1 2 _ (by norm_num)
    (by simp) (by simp) (by simp) (by simp)

/-! Grid builder and pipeline. -/

/-- Bounding box of the walkable area. The source consumes the walkable
area only through walkable_area.bounds, the tuple
(min_x, min_y, max_x, max_y), so the area is embedded by its bounds. -/
structure WalkableArea where
  min_x : ℝ
  min_y : ℝ
  max_x : ℝ
  max_y : ℝ

/-- A rectangular grid cell: the four corner coordinates handed to
shapely.box inside get_grid_cells of the source. -/
structure Cell where
  x0 : ℝ
  y0 : ℝ
  x1 : ℝ
  y1 : ℝ

/-- A planar point, as returned by shapely.centroid. -/
structure Point where
  x : ℝ
  y : ℝ

/-- Centroid of a rectangular cell: the midpoint of its two corners. -/
noncomputable def Cell.centroid (c : Cell) : Point :=
  ⟨(c.x0 + c.x1) / 2, (c.y0 + c.y1) / 2⟩

/-- The pedpy speed-method enumeration consumed by the source. -/
inductive SpeedMethod where
  | GAUSSIAN
  | VORONOI
  | ARITHMETIC
deriving DecidableEq

/-- Runtime errors the embedded pipeline can raise: the numpy arange
step-zero error, the numpy vectorize size-zero-input error, the Python
slice step-zero error, a numpy reshape mismatch, and the explicit
speed-method rejection of the source (a generic ValueError there). -/
inductive PyError where
  | arangeZeroStep
  | vectorizeEmptyInput
  | sliceZeroStep
  | reshapeMismatch
  | speedMethodRejected (m : SpeedMethod)
deriving DecidableEq

/-- numpy.arange over the reals: start, start + step, ... with length the
ceiling of (stop - start) / step, empty when that ratio is nonpositive.
The step-zero error is raised by the caller get_grid_cells below. -/
noncomputable def arange (start stop step : ℝ) : List ℝ :=
  (List.range ⌈(stop - start) / step⌉₊).map fun i : ℕ => start + i * step

/-- Embedding of get_grid_cells of the source: x coordinates from min_x up
to max_x + grid_size, y coordinates from max_y down to min_y - grid_size,
one cell per adjacent coordinate pair, looped rows-outer columns-inner,
returning the flat cell list together with rows and cols counts. -/
noncomputable def get_grid_cells (walkable_area : WalkableArea) (grid_size : ℝ) :
    Except PyError (List Cell × ℤ × ℤ) :=
  if grid_size = 0 then .error .arangeZeroStep
  else
    let x_coords := arange walkable_area.min_x (walkable_area.max_x + grid_size) grid_size
    let y_coords := arange walkable_area.max_y (walkable_area.min_y - grid_size) (-grid_size)
    let grid_cells :=
      ((List.range (y_coords.length - 1)).map fun j =>
        (List.range (x_coords.length - 1)).map fun i =>
          Cell.mk (x_coords.getD i 0) (y_coords.getD j 0)
            (x_coords.getD (i + 1) 0) (y_coords.getD (j + 1) 0)).flatten
    .ok (grid_cells, (y_coords.length : ℤ) - 1, (x_coords.length : ℤ) - 1)

/-- Python list slicing l[:c], including the negative-index convention. -/
def sliceTo {α : Type} (l : List α) (c : ℤ) : List α :=
  if 0 ≤ c then l.take c.toNat else l.take (l.length - (-c).toNat)

/-- Elements at indices 0, k, 2k, ... of a list. -/
def everyNth {α : Type} : List α → ℕ → List α
  | [], _ => []
  | a :: l, k => a :: everyNth (l.drop (k - 1)) k
termination_by l _ => l.length
decreasing_by simp [List.length_drop]; omega

/-- Python list slicing l[::s], which raises on a zero step and walks the
list backwards for a negative step. -/
def sliceStep {α : Type} (l : List α) (s : ℤ) : Except PyError (List α) :=
  if s = 0 then .error .sliceZeroStep
  else if 0 < s then .ok (everyNth l s.toNat)
  else .ok (everyNth l.reverse (-s).toNat)

/-- numpy reshape of a 2-d array to the shape (rows, cols): succeeds when
the element count matches, lets a single -1 dimension be inferred, and
raises on any mismatch. -/
def reshape2 (m : List (List ℝ)) (rows cols : ℤ) : Except PyError (List (List ℝ)) :=
  let flat := m.flatten
  let mk : ℕ → ℕ → List (List ℝ) := fun r c =>
    (List.range r).map fun j => (flat.drop (j * c)).take c
  if 0 ≤ rows ∧ 0 ≤ cols then
    if flat.length = rows.toNat * cols.toNat then .ok (mk rows.toNat cols.toNat)
    else .error .reshapeMismatch
  else if rows = -1 ∧ 0 < cols then
    if cols.toNat ∣ flat.length then .ok (mk (flat.length / cols.toNat) cols.toNat)
    else .error .reshapeMismatch
  else if cols = -1 ∧ 0 < rows then
    if rows.toNat ∣ flat.length then .ok (mk rows.toNat (flat.length / rows.toNat))
    else .error .reshapeMismatch
  else .error .reshapeMismatch

/-- numpy.vectorize applied to shapely.centroid, as in the source: maps
over the cell array but raises a ValueError on a size-zero input. -/
noncomputable def vectorizeCentroid : List Cell → Except PyError (List Point)
  | [] => .error .vectorizeEmptyInput
  | cells => .ok (cells.map Cell.centroid)

/-- Distinct frame identifiers in first-encountered order; used only to
model the iteration order the spec asserts. -/
def firstEncounteredFrames : List ℤ → List ℤ
  | [] => []
  | a :: l => a :: firstEncounteredFrames (l.filter fun b => b ≠ a)
termination_by l => l.length
decreasing_by simpa using Nat.lt_succ_of_le (List.length_filter_le _ _)

/-- Group keys yielded by pandas groupby(FRAME_COL) with its default
sort=True, as in the source: the distinct frame identifiers in ascending
order; each group keeps its rows in original dataset order. -/
def sortedFrames (data : List Row) : List ℤ :=
  List.insertionSort (· ≤ ·) (data.map Row.frame).dedup

/-- Body of compute_speed_profile of the source, parametrized by the list
of group keys that the groupby iteration yields: build the grid once,
take the centroids, slice out the per-column center-x and per-row center-y
coordinates, then run the kernel engine and reshape once per frame.
The dead speed-method branch of the source is kept verbatim. -/
noncomputable def compute_with_frames (frames : List ℤ) (data : List Row)
    (walkable_area : WalkableArea) (grid_size : ℝ) (speed_method : SpeedMethod)
    (fwhm : ℝ) : Except PyError (List (List (List ℝ))) := do
  let gco ← get_grid_cells walkable_area grid_size
  let grid_center ← vectorizeCentroid gco.1
  let center_x := (sliceTo grid_center gco.2.2).map Point.x
  let cy_points ← sliceStep grid_center gco.2.2
  let center_y := cy_points.map Point.y
  frames.mapM fun f =>
    let frame_data := data.filter fun r => r.frame == f
    if true || (speed_method == SpeedMethod.GAUSSIAN) then
      reshape2 (compute_gaussian_weighted_speed_profile frame_data center_x center_y fwhm)
        gco.2.1 gco.2.2
    else
      .error (.speedMethodRejected speed_method)

/-- Embedding of compute_speed_profile of the source. The groupby of the
source sorts the distinct frame keys ascending (pandas default sort=True).
The fill_value argument is accepted but, exactly as in the source, never
used. -/
noncomputable def compute_speed_profile (data : List Row) (walkable_area : WalkableArea)
    (grid_size : ℝ) (speed_method : SpeedMethod) (fill_value : ℝ) (fwhm : ℝ) :
    Except PyError (List (List (List ℝ))) :=
  compute_with_frames (sortedFrames data) data walkable_area grid_size speed_method fwhm

/-- Modelled from the spec: the frame-batch driver the spec describes,
identical to compute_speed_profile except that frame groups are iterated
in the order they are first encountered in the dataset, which the spec
asserts of the source. Used only to compare against the embedding of the
source. -/
noncomputable def compute_speed_profile_first_encountered (data : List Row)
    (walkable_area : WalkableArea) (grid_size : ℝ) (speed_method : SpeedMethod)
    (fill_value : ℝ) (fwhm : ℝ) : Except PyError (List (List (List ℝ))) :=
  compute_with_frames (firstEncounteredFrames (data.map Row.frame)) data
    walkable_area grid_size speed_method fwhm

/-! Evaluation lemmas for the grid builder. -/

theorem arange_length (start stop step : ℝ) :
    (arange start stop step).length = ⌈(stop - start) / step⌉₊ := by
  unfold arange
  rw [List.length_map, List.length_range]

theorem arange_getD (start stop step : ℝ) (i : ℕ)
    (h : i < ⌈(stop - start) / step⌉₊) :
    (arange start stop step).getD i 0 = start + i * step := by
  rw [List.getD_eq_getElem _ _ (by rw [arange_length]; exact h)]
  unfold arange
  rw [List.getElem_map, List.getElem_range]

theorem length_flatten_uniform {α : Type} (m : List (List α)) (c : ℕ)
    (h : ∀ r ∈ m, r.length = c) : m.flatten.length = m.length * c := by
  rw [List.length_flatten]
  rw [List.sum_eq_card_nsmul (m.map List.length) c ?_]
  · simp [smul_eq_mul]
  · intro x hx
    obtain ⟨r, hr, rfl⟩ := List.mem_map.mp hx
    exact h r hr

/-- Shared helper: full evaluation of the grid builder on a box with
ordered bounds and a positive grid size: the cell corners form the
regular lattice, row-major with row zero at the top (highest y). -/
theorem get_grid_cells_eval (wa : WalkableArea) (g : ℝ) (hg : 0 < g)
    (hx : wa.min_x ≤ wa.max_x) (hy : wa.min_y ≤ wa.max_y) :
    get_grid_cells wa g = .ok
      (((List.range ⌈(wa.max_y - wa.min_y) / g⌉₊).map fun j : ℕ =>
        (List.range ⌈(wa.max_x - wa.min_x) / g⌉₊).map fun i : ℕ =>
          Cell.mk (wa.min_x + i * g) (wa.max_y - j * g)
            (wa.min_x + (i + 1) * g) (wa.max_y - (j + 1) * g)).flatten,
       (⌈(wa.max_y - wa.min_y) / g⌉₊ : ℤ), (⌈(wa.max_x - wa.min_x) / g⌉₊ : ℤ)) := by
  have hgne : g ≠ 0 := hg.ne'
  have hxlen : (arange wa.min_x (wa.max_x + g) g).length =
      ⌈(wa.max_x - wa.min_x) / g⌉₊ + 1 := by
    rw [arange_length,
      show (wa.max_x + g - wa.min_x) / g = (wa.max_x - wa.min_x) / g + 1 by
        field_simp
        ring]
    exact Nat.ceil_add_one (div_nonneg (by linarith) hg.le)
  have hylen : (arange wa.max_y (wa.min_y - g) (-g)).length =
      ⌈(wa.max_y - wa.min_y) / g⌉₊ + 1 := by
    rw [arange_length,
      show (wa.min_y - g - wa.max_y) / (-g) = (wa.max_y - wa.min_y) / g + 1 by
        rw [div_add' _ _ _ hgne, div_eq_div_iff (neg_ne_zero.mpr hgne) hgne]
        ring]
    exact Nat.ceil_add_one (div_nonneg (by linarith) hg.le)
  simp only [get_grid_cells, hgne, if_false]
  rw [hxlen, hylen]
  simp only [Nat.add_sub_cancel, Except.ok.injEq, Prod.mk.injEq]
  refine ⟨?_, by push_cast; ring, by push_cast; ring⟩
  apply congrArg List.flatten
  apply List.map_congr_left
  intro j hj
  apply List.map_congr_left
  intro i hi
  have hjr := List.mem_range.mp hj
  have hir := List.mem_range.mp hi
  have hgx : ∀ k : ℕ, k < ⌈(wa.max_x - wa.min_x) / g⌉₊ + 1 →
      (arange wa.min_x (wa.max_x + g) g).getD k 0 = wa.min_x + k * g := by
    intro k hk
    exact arange_getD _ _ _ k (by rw [← arange_length, hxlen]; omega)
  have hgy : ∀ k : ℕ, k < ⌈(wa.max_y - wa.min_y) / g⌉₊ + 1 →
      (arange wa.max_y (wa.min_y - g) (-g)).getD k 0 = wa.max_y + k * (-g) := by
    intro k hk
    exact arange_getD _ _ _ k (by rw [← arange_length, hylen]; omega)
  rw [hgx i (by omega), hgx (i + 1) (by omega), hgy j (by omega), hgy (j + 1) (by omega)]
  simp only [Cell.mk.injEq]
  refine ⟨by ring, by ring, by push_cast; ring, by push_cast; ring⟩

/-! Evaluation lemmas for slicing, centroids and reshape. -/

theorem vectorizeCentroid_of_ne_nil {cells : List Cell} (h : cells ≠ []) :
    vectorizeCentroid cells = .ok (cells.map Cell.centroid) := by
  cases cells with
  | nil => exact absurd rfl h
  | cons a l => rfl

theorem sliceTo_nonneg {α : Type} (l : List α) (c : ℕ) :
    sliceTo l (c : ℤ) = l.take c := by
  unfold sliceTo
  rw [if_pos (Int.ofNat_nonneg c), Int.toNat_natCast]

theorem sliceStep_pos {α : Type} (l : List α) (s : ℕ) (hs : 0 < s) :
    sliceStep l (s : ℤ) = .ok (everyNth l s) := by
  unfold sliceStep
  rw [if_neg (by exact_mod_cast hs.ne'), if_pos (by exact_mod_cast hs), Int.toNat_natCast]

/-- Taking every c-th element of a flattening of rows of uniform length c
returns the heads of the rows. -/
theorem everyNth_flatten_aux {α : Type} (c : ℕ) (m : List (List α))
    (h : ∀ r ∈ m, r.length = c + 1) :
    everyNth m.flatten (c + 1) = m.filterMap List.head? := by
  induction m with
  | nil => simp [everyNth]
  | cons r t ih =>
    have hr : r.length = c + 1 := h r (List.mem_cons_self r t)
    obtain ⟨a, r', rfl⟩ : ∃ a r', r = a :: r' := by
      cases r with
      | nil => simp at hr
      | cons a r' => exact ⟨a, r', rfl⟩
    rw [List.flatten_cons, List.cons_append]
    rw [show everyNth (a :: (r' ++ t.flatten)) (c + 1) =
        a :: everyNth ((r' ++ t.flatten).drop c) (c + 1) from by
      simp [everyNth]]
    have hd : (r' ++ t.flatten).drop c = t.flatten :=
      List.drop_left' (by simpa using hr)
    rw [hd, ih fun r hr2 => h r (List.mem_cons_of_mem _ hr2)]
    simp [List.filterMap_cons]

/-- Specialization to a grid of rows indexed by List.range. -/
theorem everyNth_grid {α : Type} (rN c' : ℕ) (F : ℕ → ℕ → α) :
    everyNth (((List.range rN).map fun j : ℕ =>
        (List.range (c' + 1)).map (F j)).flatten) (c' + 1) =
      (List.range rN).map fun j : ℕ => F j 0 := by
  rw [everyNth_flatten_aux c' _ ?_]
  · rw [List.filterMap_map]
    have hf : (List.head? ∘ fun j : ℕ => (List.range (c' + 1)).map (F j)) =
        fun j : ℕ => some (F j 0) := by
      funext j
      simp [List.range_succ_eq_map]
    rw [hf]
    rw [show (fun j : ℕ => some (F j 0)) = some ∘ fun j : ℕ => F j 0 from rfl]
    rw [List.filterMap_eq_map]
  · intro r hrm
    obtain ⟨j, _, rfl⟩ := List.mem_map.mp hrm
    simp

/-- Splitting a flattening of rows of uniform length back into chunks
recovers the rows. -/
theorem flatten_chunks {α : Type} (m : List (List α)) (c : ℕ)
    (hc : ∀ row ∈ m, row.length = c) :
    (List.range m.length).map (fun j : ℕ => (m.flatten.drop (j * c)).take c) = m := by
  induction m with
  | nil => simp
  | cons r t ih =>
    have hr : r.length = c := hc r (List.mem_cons_self r t)
    rw [List.length_cons, List.range_succ_eq_map, List.map_cons, List.map_map]
    congr 1
    · rw [Nat.zero_mul, List.drop_zero, List.flatten_cons, List.take_left' hr]
    · have hstep : ∀ j ∈ List.range t.length,
          ((fun j : ℕ => (((r :: t).flatten.drop (j * c)).take c)) ∘ Nat.succ) j =
            (t.flatten.drop (j * c)).take c := by
        intro j _
        simp only [Function.comp_apply]
        rw [List.flatten_cons, Nat.succ_eq_add_one,
          show (j + 1) * c = r.length + j * c by rw [hr]; ring, List.drop_append]
      rw [List.map_congr_left hstep]
      exact ih fun row hrow => hc row (List.mem_cons_of_mem _ hrow)

/-- A reshape to the present shape of a uniform 2-d list is the identity. -/
theorem reshape2_id (m : List (List ℝ)) (r c : ℕ) (hr : m.length = r)
    (hc : ∀ row ∈ m, row.length = c) :
    reshape2 m (r : ℤ) (c : ℤ) = .ok m := by
  have hflat : m.flatten.length = r * c := by
    rw [length_flatten_uniform m c hc, hr]
  unfold reshape2
  rw [if_pos ⟨Int.ofNat_nonneg r, Int.ofNat_nonneg c⟩]
  rw [Int.toNat_natCast, Int.toNat_natCast, if_pos hflat]
  subst hr
  exact congrArg Except.ok (flatten_chunks m c hc)

/-- Under the Except monad, mapping a function that succeeds on every
element succeeds with the list of results. -/
theorem mapM_ok_of_forall_ok {α β : Type} (l : List α) (f : α → Except PyError β)
    (g : α → β) (h : ∀ x ∈ l, f x = .ok (g x)) : l.mapM f = .ok (l.map g) := by
  induction l with
  | nil => rfl
  | cons a t ih =>
    rw [List.mapM_cons, h a (List.mem_cons_self a t),
      ih fun x hx => h x (List.mem_cons_of_mem _ hx)]
    rfl

theorem ok_bind {α β : Type} (a : α) (k : α → Except PyError β) :
    (Except.ok a : Except PyError α) >>= k = k a := rfl

/-- The center-x coordinates the pipeline extracts from the first grid row:
one per column, at min_x + (i + 1/2) * grid_size. -/
noncomputable def centerXList (wa : WalkableArea) (g : ℝ) : List ℝ :=
  (List.range ⌈(wa.max_x - wa.min_x) / g⌉₊).map fun i : ℕ => wa.min_x + (i + 1 / 2) * g

/-- The center-y coordinates the pipeline extracts from the first grid
column: one per row, at max_y - (j + 1/2) * grid_size, descending. -/
noncomputable def centerYList (wa : WalkableArea) (g : ℝ) : List ℝ :=
  (List.range ⌈(wa.max_y - wa.min_y) / g⌉₊).map fun j : ℕ => wa.max_y - (j + 1 / 2) * g

theorem compute_gaussian_weighted_speed_profile_length (fd : List Row)
    (cx cy : List ℝ) (fwhm : ℝ) :
    (compute_gaussian_weighted_speed_profile fd cx cy fwhm).length = cy.length := by
  unfold compute_gaussian_weighted_speed_profile
  rw [List.length_map]

theorem compute_gaussian_weighted_speed_profile_row_length (fd : List Row)
    (cx cy : List ℝ) (fwhm : ℝ) :
    ∀ row ∈ compute_gaussian_weighted_speed_profile fd cx cy fwhm,
      row.length = cx.length := by
  intro row hrow
  unfold compute_gaussian_weighted_speed_profile at hrow
  obtain ⟨c, _, rfl⟩ := List.mem_map.mp hrow
  rw [List.length_map]

/-- Shared helper: on a box with positive extent in both directions and a
positive grid size, the full pipeline succeeds and returns, for each frame
key in the iteration list, the kernel grid of the rows of that frame,
evaluated at the lattice of cell centers. -/
theorem compute_with_frames_ok (frames : List ℤ) (data : List Row)
    (wa : WalkableArea) (g : ℝ) (m : SpeedMethod) (fwhm : ℝ)
    (hg : 0 < g) (hx : wa.min_x < wa.max_x) (hy : wa.min_y < wa.max_y) :
    compute_with_frames frames data wa g m fwhm =
      .ok (frames.map fun f =>
        compute_gaussian_weighted_speed_profile (data.filter fun r => r.frame == f)
          (centerXList wa g) (centerYList wa g) fwhm) := by
  have hgrid := get_grid_cells_eval wa g hg hx.le hy.le
  set rN := ⌈(wa.max_y - wa.min_y) / g⌉₊ with hrNdef
  set cN := ⌈(wa.max_x - wa.min_x) / g⌉₊ with hcNdef
  have hrN : 0 < rN := Nat.ceil_pos.mpr (div_pos (by linarith) hg)
  have hcN : 0 < cN := Nat.ceil_pos.mpr (div_pos (by linarith) hg)
  set cellRows := (List.range rN).map (fun j : ℕ =>
    (List.range cN).map fun i : ℕ =>
      Cell.mk (wa.min_x + i * g) (wa.max_y - j * g)
        (wa.min_x + (i + 1) * g) (wa.max_y - (j + 1) * g)) with hrowsdef
  have hrowlen : ∀ r ∈ cellRows, r.length = cN := by
    intro r hr
    rw [hrowsdef] at hr
    obtain ⟨j, _, rfl⟩ := List.mem_map.mp hr
    rw [List.length_map, List.length_range]
  have hflatlen : cellRows.flatten.length = rN * cN := by
    rw [length_flatten_uniform _ cN hrowlen, hrowsdef, List.length_map, List.length_range]
  have hne : cellRows.flatten ≠ [] :=
    List.length_pos.mp (by rw [hflatlen]; exact Nat.mul_pos hrN hcN)
  set pts := cellRows.flatten.map Cell.centroid with hptsdef
  have hvec : vectorizeCentroid cellRows.flatten = .ok pts :=
    vectorizeCentroid_of_ne_nil hne
  have hptseq : pts = ((List.range rN).map fun j : ℕ =>
      (List.range cN).map fun i : ℕ =>
        Cell.centroid (Cell.mk (wa.min_x + i * g) (wa.max_y - j * g)
          (wa.min_x + (i + 1) * g) (wa.max_y - (j + 1) * g))).flatten := by
    rw [hptsdef, hrowsdef, List.map_flatten, List.map_map]
    apply congrArg List.flatten
    apply List.map_congr_left
    intro j _
    simp only [Function.comp_apply]
    rw [List.map_map]
    rfl
  have hss : sliceStep pts ((cN : ℕ) : ℤ) = .ok (everyNth pts cN) :=
    sliceStep_pos pts cN hcN
  have hcx : (sliceTo pts ((cN : ℕ) : ℤ)).map Point.x = centerXList wa g := by
    obtain ⟨rN1, hrN1⟩ : ∃ k, rN = k + 1 := ⟨rN - 1, by omega⟩
    rw [sliceTo_nonneg, hptseq, hrN1]
    simp only [List.range_succ_eq_map, List.map_cons, List.flatten_cons, Nat.cast_zero]
    rw [List.take_left' (by rw [List.length_map, List.length_range])]
    rw [List.map_map]
    unfold centerXList
    rw [← hcNdef]
    apply List.map_congr_left
    intro i _
    simp only [Function.comp_apply, Cell.centroid]
    ring
  have hcy : (everyNth pts cN).map Point.y = centerYList wa g := by
    obtain ⟨cN1, hcN1⟩ : ∃ k, cN = k + 1 := ⟨cN - 1, by omega⟩
    rw [hptseq, hcN1, everyNth_grid, List.map_map]
    unfold centerYList
    rw [← hrNdef]
    apply List.map_congr_left
    intro j _
    simp only [Function.comp_apply, Cell.centroid]
    ring
  simp only [compute_with_frames, hgrid, ok_bind, hvec, hss, hcx, hcy]
  apply mapM_ok_of_forall_ok
  intro f hf
  show reshape2 (compute_gaussian_weighted_speed_profile
      (data.filter fun r => r.frame == f) (centerXList wa g) (centerYList wa g) fwhm)
      ((rN : ℕ) : ℤ) ((cN : ℕ) : ℤ) = _
  refine reshape2_id _ rN cN ?_ ?_
  · rw [compute_gaussian_weighted_speed_profile_length]
    unfold centerYList
    rw [← hrNdef, List.length_map, List.length_range]
  · intro row hrow
    rw [compute_gaussian_weighted_speed_profile_row_length _ _ _ _ row hrow]
    unfold centerXList
    rw [← hcNdef, List.length_map, List.length_range]

/-! Error analysis of the pipeline. -/

theorem error_bind {α β : Type} (e : PyError) (k : α → Except PyError β) :
    (Except.error e : Except PyError α) >>= k = .error e := rfl

theorem get_grid_cells_error (wa : WalkableArea) (g : ℝ) {e : PyError}
    (h : get_grid_cells wa g = .error e) : e = .arangeZeroStep := by
  unfold get_grid_cells at h
  by_cases hg : g = 0
  · rw [if_pos hg] at h
    injection h with h
    exact h.symm
  · rw [if_neg hg] at h
    simp at h

theorem vectorizeCentroid_error (cells : List Cell) {e : PyError}
    (h : vectorizeCentroid cells = .error e) : e = .vectorizeEmptyInput := by
  cases cells with
  | nil =>
    injection h with h
    exact h.symm
  | cons a l => simp [vectorizeCentroid] at h

theorem sliceStep_error {α : Type} (l : List α) (s : ℤ) {e : PyError}
    (h : sliceStep l s = .error e) : e = .sliceZeroStep := by
  unfold sliceStep at h
  by_cases h0 : s = 0
  · rw [if_pos h0] at h
    injection h with h
    exact h.symm
  · rw [if_neg h0] at h
    by_cases h1 : 0 < s
    · rw [if_pos h1] at h
      simp at h
    · rw [if_neg h1] at h
      simp at h

theorem reshape2_error (m : List (List ℝ)) (rows cols : ℤ) {e : PyError}
    (h : reshape2 m rows cols = .error e) : e = .reshapeMismatch := by
  simp only [reshape2] at h
  split_ifs at h <;> simp_all

theorem mapM_error {α β : Type} (l : List α) (f : α → Except PyError β) {e : PyError}
    (h : l.mapM f = .error e) : ∃ x ∈ l, f x = .error e := by
  induction l with
  | nil =>
    rw [List.mapM_nil] at h
    simp [pure, Except.pure] at h
  | cons a t ih =>
    rw [List.mapM_cons] at h
    cases hfa : f a with
    | error e1 =>
      simp only [hfa, error_bind] at h
      injection h with h
      exact ⟨a, List.mem_cons_self a t, by rw [hfa, h]⟩
    | ok b =>
      simp only [hfa, ok_bind] at h
      cases hft : t.mapM f with
      | error e2 =>
        simp only [hft, error_bind] at h
        injection h with h
        obtain ⟨x, hx, hfx⟩ := ih (by rw [hft, h])
        exact ⟨x, List.mem_cons_of_mem _ hx, hfx⟩
      | ok bs =>
        simp only [hft, ok_bind] at h
        simp [pure, Except.pure] at h

/-- C9: the speed_method argument has no effect on the result of
compute_speed_profile, and no run can produce the error of the dead
speed-method branch: that branch is unreachable. -/
theorem C9_speed_method_has_no_effect :
    (∀ (data : List Row) (wa : WalkableArea) (g : ℝ) (m₁ m₂ : SpeedMethod)
        (fv fwhm : ℝ),
      compute_speed_profile data wa g m₁ fv fwhm =
        compute_speed_profile data wa g m₂ fv fwhm) ∧
    (∀ (data : List Row) (wa : WalkableArea) (g : ℝ) (m : SpeedMethod)
        (fv fwhm : ℝ) (e : PyError),
      compute_speed_profile data wa g m fv fwhm = .error e →
        ∀ m' : SpeedMethod, e ≠ .speedMethodRejected m') := by
  constructor
  · intro data wa g m₁ m₂ fv fwhm
    rfl
  · intro data wa g m fv fwhm e h m'
    unfold compute_speed_profile compute_with_frames at h
    cases hgc : get_grid_cells wa g with
    | error e1 =>
      rw [hgc, error_bind] at h
      injection h with h
      rw [← h, get_grid_cells_error wa g hgc]
      simp
    | ok gco =>
      simp only [hgc, ok_bind] at h
      cases hvc : vectorizeCentroid gco.1 with
      | error e2 =>
        rw [hvc, error_bind] at h
        injection h with h
        rw [← h, vectorizeCentroid_error _ hvc]
        simp
      | ok pts =>
        simp only [hvc, ok_bind] at h
        cases hsl : sliceStep pts gco.2.2 with
        | error e3 =>
          rw [hsl, error_bind] at h
          injection h with h
          rw [← h, sliceStep_error _ _ hsl]
          simp
        | ok cyp =>
          simp only [hsl, ok_bind] at h
          obtain ⟨x, _, hfx⟩ := mapM_error _ _ h
          simp only [Bool.true_or, if_true] at hfx
          rw [reshape2_error _ _ _ hfx]
          simp

/-- C1 (evidence for the code bug): the kernel engine applied to a frame
with zero agents yields zero in every cell, not a caller-supplied fill
value, and the fill_value argument of compute_speed_profile has no effect
whatsoever on the result. -/
theorem C1_zero_agents_give_zero_and_fill_value_unused :
    compute_gaussian_weighted_speed_profile [] [1 / 2] [1 / 2] 1 = [[0]] ∧
      ∀ (data : List Row) (wa : WalkableArea) (g : ℝ) (m : SpeedMethod)
        (fv₁ fv₂ fwhm : ℝ),
        compute_speed_profile data wa g m fv₁ fwhm =
          compute_speed_profile data wa g m fv₂ fwhm := by
  constructor
  · simp [compute_gaussian_weighted_speed_profile, cellValue]
  · intro data wa g m fv₁ fv₂ fwhm
    rfl


/-- Shared helper: the j-th chunk of length c of a flattening of rows of
uniform length c is the j-th row. -/
theorem flatten_chunk_at {α : Type} (m : List (List α)) (c : ℕ)
    (hc : ∀ r ∈ m, r.length = c) (j : ℕ) (hj : j < m.length) :
    (m.flatten.drop (j * c)).take c = m.getD j [] := by
  induction m generalizing j with
  | nil => simp at hj
  | cons r t ih =>
    have hr : r.length = c := hc r (List.mem_cons_self r t)
    cases j with
    | zero =>
      rw [Nat.zero_mul, List.drop_zero, List.flatten_cons, List.take_left' hr]
      rfl
    | succ j1 =>
      rw [List.flatten_cons, show (j1 + 1) * c = r.length + j1 * c by rw [hr]; ring,
        List.drop_append, List.getD_cons_succ]
      exact ih (fun row hrow => hc row (List.mem_cons_of_mem _ hrow)) j1 (by simpa using hj)

/-- C4: on a finite non-degenerate box with positive grid size the grid
builder returns rows = ceil((max_y - min_y)/grid_size) and cols =
ceil((max_x - min_x)/grid_size) with exactly rows * cols cells in
row-major order: the j-th row of cells (row 0 at the highest y) is the
j-th slab of the lattice, the extracted column centers are
min_x + (i + 1/2) * grid_size and the extracted row centers are the
descending values max_y - (j + 1/2) * grid_size; on the unit square with
grid_size = 1/2 this yields rows = cols = 2 and centers 1/4 and 3/4 on
each axis (see the witness). -/
theorem C4_grid_shape (wa : WalkableArea) (g : ℝ)
    (hg : 0 < g) (hx : wa.min_x < wa.max_x) (hy : wa.min_y < wa.max_y) :
    ∃ cells : List Cell,
      get_grid_cells wa g = .ok (cells,
        (⌈(wa.max_y - wa.min_y) / g⌉₊ : ℤ), (⌈(wa.max_x - wa.min_x) / g⌉₊ : ℤ)) ∧
      cells.length = ⌈(wa.max_y - wa.min_y) / g⌉₊ * ⌈(wa.max_x - wa.min_x) / g⌉₊ ∧
      (∀ j : ℕ, j < ⌈(wa.max_y - wa.min_y) / g⌉₊ →
        (cells.drop (j * ⌈(wa.max_x - wa.min_x) / g⌉₊)).take
            ⌈(wa.max_x - wa.min_x) / g⌉₊ =
          (List.range ⌈(wa.max_x - wa.min_x) / g⌉₊).map fun i : ℕ =>
            Cell.mk (wa.min_x + i * g) (wa.max_y - j * g)
              (wa.min_x + (i + 1) * g) (wa.max_y - (j + 1) * g)) ∧
      (cells.take ⌈(wa.max_x - wa.min_x) / g⌉₊).map (fun c => c.centroid.x) =
        centerXList wa g ∧
      (everyNth cells ⌈(wa.max_x - wa.min_x) / g⌉₊).map (fun c => c.centroid.y) =
        centerYList wa g := by
  have hgrid := get_grid_cells_eval wa g hg hx.le hy.le
  set rN := ⌈(wa.max_y - wa.min_y) / g⌉₊ with hrNdef
  set cN := ⌈(wa.max_x - wa.min_x) / g⌉₊ with hcNdef
  have hrN : 0 < rN := Nat.ceil_pos.mpr (div_pos (by linarith) hg)
  have hcN : 0 < cN := Nat.ceil_pos.mpr (div_pos (by linarith) hg)
  set cellRows := (List.range rN).map (fun j : ℕ =>
    (List.range cN).map fun i : ℕ =>
      Cell.mk (wa.min_x + i * g) (wa.max_y - j * g)
        (wa.min_x + (i + 1) * g) (wa.max_y - (j + 1) * g)) with hrowsdef
  have hrowlen : ∀ r ∈ cellRows, r.length = cN := by
    intro r hr
    rw [hrowsdef] at hr
    obtain ⟨j, _, rfl⟩ := List.mem_map.mp hr
    rw [List.length_map, List.length_range]
  have hlen : cellRows.length = rN := by
    rw [hrowsdef, List.length_map, List.length_range]
  have hflatlen : cellRows.flatten.length = rN * cN := by
    rw [length_flatten_uniform _ cN hrowlen, hlen]
  refine ⟨cellRows.flatten, hgrid, hflatlen, ?_, ?_, ?_⟩
  · intro j hj
    rw [flatten_chunk_at cellRows cN hrowlen j (by rw [hlen]; exact hj)]
    rw [List.getD_eq_getElem _ _ (by rw [hlen]; exact hj)]
    simp only [hrowsdef, List.getElem_map, List.getElem_range]
  · obtain ⟨rN1, hrN1⟩ : ∃ k, rN = k + 1 := ⟨rN - 1, by omega⟩
    rw [hrowsdef, hrN1]
    simp only [List.range_succ_eq_map, List.map_cons, List.flatten_cons, Nat.cast_zero]
    rw [List.take_left' (by rw [List.length_map, List.length_range])]
    rw [List.map_map]
    unfold centerXList
    rw [← hcNdef]
    apply List.map_congr_left
    intro i _
    simp only [Function.comp_apply, Cell.centroid]
    ring
  · obtain ⟨cN1, hcN1⟩ : ∃ k, cN = k + 1 := ⟨cN - 1, by omega⟩
    rw [hrowsdef, hcN1, everyNth_grid, List.map_map]
    unfold centerYList
    rw [← hrNdef]
    apply List.map_congr_left
    intro j _
    simp only [Function.comp_apply, Cell.centroid]
    ring

/-- Witness for C4 on the unit square with grid_size one half. -/
theorem C4_witness :
    ∃ cells : List Cell,
      get_grid_cells ⟨0, 0, 1, 1⟩ (1 / 2) = .ok (cells, 2, 2) ∧
      cells.length = 4 ∧
      (cells.take 2).map (fun c => c.centroid.x) = [1 / 4, 3 / 4] ∧
      (everyNth cells 2).map (fun c => c.centroid.y) = [3 / 4, 1 / 4] := by
  obtain ⟨cells, h1, h2, h3, h4, h5⟩ :=
    C4_grid_shape ⟨0, 0, 1, 1⟩ (1 / 2) (by norm_num) (by norm_num) (by norm_num)
  have hc : ⌈(((⟨0, 0, 1, 1⟩ : WalkableArea)).max_x -
      ((⟨0, 0, 1, 1⟩ : WalkableArea)).min_x) / (1 / 2)⌉₊ = 2 := by
    norm_num
  rw [hc] at h1 h2 h4 h5
  push_cast at h1
  refine ⟨cells, h1, by rw [h2], ?_, ?_⟩
  · rw [h4]
    unfold centerXList
    rw [hc]
    norm_num [List.range_succ]
  · rw [h5]
    unfold centerYList
    rw [hc]
    norm_num [List.range_succ]

/-- Shared helper: the single cell center x of the unit square at grid
size one. -/
theorem centerXList_unit_square_one : centerXList ⟨0, 0, 1, 1⟩ 1 = [1 / 2] := by
  unfold centerXList
  norm_num [List.range_succ]

/-- Shared helper: the single cell center y of the unit square at grid
size one. -/
theorem centerYList_unit_square_one : centerYList ⟨0, 0, 1, 1⟩ 1 = [1 / 2] := by
  unfold centerYList
  norm_num [List.range_succ]

/-- C5 corrected: no InvalidGeometryError exists in the code. On a
degenerate (zero-height) bounding box with positive grid size the grid
builder returns normally with zero rows and an empty cell list, and
compute_speed_profile then fails with the generic numpy vectorize
size-zero-input ValueError, not a typed geometry error. -/
theorem C5_degenerate_box_not_rejected (data : List Row) (wa : WalkableArea)
    (g : ℝ) (m : SpeedMethod) (fv fwhm : ℝ)
    (hg : 0 < g) (hx : wa.min_x ≤ wa.max_x) (hy : wa.min_y = wa.max_y) :
    get_grid_cells wa g = .ok ([], 0, (⌈(wa.max_x - wa.min_x) / g⌉₊ : ℤ)) ∧
      compute_speed_profile data wa g m fv fwhm = .error .vectorizeEmptyInput := by
  have hgrid := get_grid_cells_eval wa g hg hx (le_of_eq hy)
  have hr0 : ⌈(wa.max_y - wa.min_y) / g⌉₊ = 0 := by
    rw [hy]
    simp
  rw [hr0] at hgrid
  simp only [List.range_zero, List.map_nil, List.flatten_nil, Nat.cast_zero] at hgrid
  refine ⟨hgrid, ?_⟩
  unfold compute_speed_profile compute_with_frames
  rw [hgrid]
  rfl

/-- C5 counterexample: on the degenerate zero-height box with grid size
one the grid builder returns ok with zero rows and one column; it signals
no error at all, in particular no InvalidGeometryError. -/
theorem C5_counterexample :
    get_grid_cells ⟨0, 0, 1, 0⟩ 1 = .ok ([], 0, 1) := by
  have h := get_grid_cells_eval ⟨0, 0, 1, 0⟩ 1 (by norm_num) (by norm_num) (by norm_num)
  have hr : ⌈(((⟨0, 0, 1, 0⟩ : WalkableArea)).max_y -
      ((⟨0, 0, 1, 0⟩ : WalkableArea)).min_y) / 1⌉₊ = 0 := by
    norm_num
  have hc : ⌈(((⟨0, 0, 1, 0⟩ : WalkableArea)).max_x -
      ((⟨0, 0, 1, 0⟩ : WalkableArea)).min_x) / 1⌉₊ = 1 := by
    norm_num
  rw [hr, hc] at h
  simpa using h

/-- Witness for C5 at a concrete degenerate box and dataset. -/
theorem C5_witness :
    get_grid_cells ⟨0, 0, 1, 0⟩ 1 = .ok ([], 0, 1) ∧
      compute_speed_profile [⟨0, 0, 0, 1⟩] ⟨0, 0, 1, 0⟩ 1 .GAUSSIAN 0 1 =
        .error .vectorizeEmptyInput := by
  obtain ⟨h1, h2⟩ := C5_degenerate_box_not_rejected [⟨0, 0, 0, 1⟩] ⟨0, 0, 1, 0⟩ 1
    .GAUSSIAN 0 1 (by norm_num) (by norm_num) rfl
  refine ⟨?_, h2⟩
  rw [h1]
  norm_num

/-- C6 corrected: fwhm is not validated anywhere: for every fwhm value,
nonpositive ones included, the pipeline completes normally on a
well-formed box; no InvalidParameterError exists in the code. -/
theorem C6_fwhm_not_validated (data : List Row) (wa : WalkableArea) (g : ℝ)
    (m : SpeedMethod) (fv fwhm : ℝ)
    (hg : 0 < g) (hx : wa.min_x < wa.max_x) (hy : wa.min_y < wa.max_y) :
    ∃ l, compute_speed_profile data wa g m fv fwhm = .ok l :=
  ⟨_, compute_with_frames_ok (sortedFrames data) data wa g m fwhm hg hx hy⟩

/-- C6 counterexample: with the nonpositive value fwhm = -1 the full
pipeline on the unit square completes normally and returns the agent
speed in the single cell; the parameter is used, not rejected. -/
theorem C6_counterexample :
    compute_speed_profile [⟨0, 0, 0, 1⟩] ⟨0, 0, 1, 1⟩ 1 .GAUSSIAN 0 (-1) =
      .ok [[[1]]] := by
  have hsf : sortedFrames [⟨0, 0, 0, 1⟩] = [0] := by
    unfold sortedFrames
    rw [show ([⟨0, 0, 0, 1⟩] : List Row).map Row.frame = [0] from rfl]
    decide
  have h := compute_with_frames_ok (sortedFrames [⟨0, 0, 0, 1⟩]) [⟨0, 0, 0, 1⟩]
    ⟨0, 0, 1, 1⟩ 1 .GAUSSIAN (-1) (by norm_num) (by norm_num) (by norm_num)
  rw [hsf] at h
  unfold compute_speed_profile
  rw [hsf, h]
  simp only [List.map_cons, List.map_nil, centerXList_unit_square_one,
    centerYList_unit_square_one]
  rw [show ([⟨0, 0, 0, 1⟩] : List Row).filter (fun r => r.frame == 0) =
    [⟨0, 0, 0, 1⟩] from rfl]
  unfold compute_gaussian_weighted_speed_profile
  simp only [List.map_cons, List.map_nil]
  rw [cellValue_single (1 / 2) (1 / 2) (show (-1 : ℝ) ≠ 0 by norm_num) ⟨0, 0, 0, 1⟩]

/-- Witness for C6 at a concrete nonpositive fwhm. -/
theorem C6_witness :
    ∃ l, compute_speed_profile [⟨0, 0, 0, 1⟩] ⟨0, 0, 1, 1⟩ 1 .GAUSSIAN 0 (-1) =
      .ok l :=
  C6_fwhm_not_validated _ _ _ _ _ _ (by norm_num) (by norm_num) (by norm_num)

/-- C2 corrected: compute_speed_profile returns exactly one profile per
distinct frame_id of the dataset, but ordered by ascending numeric
frame_id (pandas groupby sorts group keys by default), not by first
encounter; each profile is the kernel grid of that frame's rows taken in
original dataset order. -/
theorem C2_one_profile_per_frame_in_sorted_order (data : List Row)
    (wa : WalkableArea) (g : ℝ) (m : SpeedMethod) (fv fwhm : ℝ)
    (hg : 0 < g) (hx : wa.min_x < wa.max_x) (hy : wa.min_y < wa.max_y) :
    compute_speed_profile data wa g m fv fwhm =
      .ok ((sortedFrames data).map fun f =>
        compute_gaussian_weighted_speed_profile (data.filter fun r => r.frame == f)
          (centerXList wa g) (centerYList wa g) fwhm) ∧
      (sortedFrames data).Sorted (· < ·) ∧
      (sortedFrames data).length = (data.map Row.frame).dedup.length ∧
      ∀ fr : ℤ, fr ∈ sortedFrames data ↔ fr ∈ data.map Row.frame := by
  refine ⟨compute_with_frames_ok _ _ _ _ _ _ hg hx hy, ?_, ?_, ?_⟩
  · exact (List.sorted_insertionSort _ _).lt_of_le
      ((List.perm_insertionSort _ _).nodup_iff.mpr ((data.map Row.frame).nodup_dedup))
  · exact (List.perm_insertionSort _ _).length_eq
  · intro fr
    unfold sortedFrames
    rw [(List.perm_insertionSort _ _).mem_iff, List.mem_dedup]

/-- Witness for C2 at a concrete two-frame dataset. -/
theorem C2_witness :
    compute_speed_profile [⟨2, 0, 0, 10⟩, ⟨1, 0, 0, 20⟩] ⟨0, 0, 1, 1⟩ 1
        .GAUSSIAN 0 1 =
      .ok ((sortedFrames [⟨2, 0, 0, 10⟩, ⟨1, 0, 0, 20⟩]).map fun f =>
        compute_gaussian_weighted_speed_profile
          (([⟨2, 0, 0, 10⟩, ⟨1, 0, 0, 20⟩] : List Row).filter fun r => r.frame == f)
          (centerXList ⟨0, 0, 1, 1⟩ 1) (centerYList ⟨0, 0, 1, 1⟩ 1) 1) ∧
      (sortedFrames [⟨2, 0, 0, 10⟩, ⟨1, 0, 0, 20⟩]).Sorted (· < ·) ∧
      (sortedFrames [⟨2, 0, 0, 10⟩, ⟨1, 0, 0, 20⟩]).length =
        (([⟨2, 0, 0, 10⟩, ⟨1, 0, 0, 20⟩] : List Row).map Row.frame).dedup.length ∧
      ∀ fr : ℤ, fr ∈ sortedFrames [⟨2, 0, 0, 10⟩, ⟨1, 0, 0, 20⟩] ↔
        fr ∈ ([⟨2, 0, 0, 10⟩, ⟨1, 0, 0, 20⟩] : List Row).map Row.frame :=
  C2_one_profile_per_frame_in_sorted_order _ _ _ _ _ _
    (by norm_num) (by norm_num) (by norm_num)

/-- C2 counterexample: with the frames first encountered in the order
2 then 1, the source returns the profiles in ascending frame order
(frame 1 first), while the first-encountered iteration the spec asserts
would return frame 2 first: the two orders disagree. -/
theorem C2_counterexample :
    compute_speed_profile [⟨2, 0, 0, 10⟩, ⟨1, 0, 0, 20⟩] ⟨0, 0, 1, 1⟩ 1
        .GAUSSIAN 0 1 = .ok [[[20]], [[10]]] ∧
      compute_speed_profile_first_encountered [⟨2, 0, 0, 10⟩, ⟨1, 0, 0, 20⟩]
        ⟨0, 0, 1, 1⟩ 1 .GAUSSIAN 0 1 = .ok [[[10]], [[20]]] ∧
      compute_speed_profile [⟨2, 0, 0, 10⟩, ⟨1, 0, 0, 20⟩] ⟨0, 0, 1, 1⟩ 1
          .GAUSSIAN 0 1 ≠
        compute_speed_profile_first_encountered [⟨2, 0, 0, 10⟩, ⟨1, 0, 0, 20⟩]
          ⟨0, 0, 1, 1⟩ 1 .GAUSSIAN 0 1 := by
  have hmapf : ([⟨2, 0, 0, 10⟩, ⟨1, 0, 0, 20⟩] : List Row).map Row.frame = [2, 1] := rfl
  have hsf : sortedFrames [⟨2, 0, 0, 10⟩, ⟨1, 0, 0, 20⟩] = [1, 2] := by
    unfold sortedFrames
    rw [hmapf]
    decide
  have hfe : firstEncounteredFrames
      (([⟨2, 0, 0, 10⟩, ⟨1, 0, 0, 20⟩] : List Row).map Row.frame) = [2, 1] := by
    rw [hmapf]
    simp [firstEncounteredFrames]
  have hf1 : ([⟨2, 0, 0, 10⟩, ⟨1, 0, 0, 20⟩] : List Row).filter
      (fun r => r.frame == 1) = [⟨1, 0, 0, 20⟩] := rfl
  have hf2 : ([⟨2, 0, 0, 10⟩, ⟨1, 0, 0, 20⟩] : List Row).filter
      (fun r => r.frame == 2) = [⟨2, 0, 0, 10⟩] := rfl
  have hone : compute_with_frames [1, 2] [⟨2, 0, 0, 10⟩, ⟨1, 0, 0, 20⟩]
      ⟨0, 0, 1, 1⟩ 1 .GAUSSIAN 1 = .ok [[[20]], [[10]]] := by
    rw [compute_with_frames_ok [1, 2] [⟨2, 0, 0, 10⟩, ⟨1, 0, 0, 20⟩] ⟨0, 0, 1, 1⟩ 1
      .GAUSSIAN 1 (by norm_num) (by norm_num) (by norm_num)]
    simp only [List.map_cons, List.map_nil, centerXList_unit_square_one,
      centerYList_unit_square_one, hf1, hf2]
    unfold compute_gaussian_weighted_speed_profile
    simp only [List.map_cons, List.map_nil]
    rw [cellValue_single (1 / 2) (1 / 2) (show (1 : ℝ) ≠ 0 by norm_num) ⟨1, 0, 0, 20⟩,
      cellValue_single (1 / 2) (1 / 2) (show (1 : ℝ) ≠ 0 by norm_num) ⟨2, 0, 0, 10⟩]
  have htwo : compute_with_frames [2, 1] [⟨2, 0, 0, 10⟩, ⟨1, 0, 0, 20⟩]
      ⟨0, 0, 1, 1⟩ 1 .GAUSSIAN 1 = .ok [[[10]], [[20]]] := by
    rw [compute_with_frames_ok [2, 1] [⟨2, 0, 0, 10⟩, ⟨1, 0, 0, 20⟩] ⟨0, 0, 1, 1⟩ 1
      .GAUSSIAN 1 (by norm_num) (by norm_num) (by norm_num)]
    simp only [List.map_cons, List.map_nil, centerXList_unit_square_one,
      centerYList_unit_square_one, hf1, hf2]
    unfold compute_gaussian_weighted_speed_profile
    simp only [List.map_cons, List.map_nil]
    rw [cellValue_single (1 / 2) (1 / 2) (show (1 : ℝ) ≠ 0 by norm_num) ⟨1, 0, 0, 20⟩,
      cellValue_single (1 / 2) (1 / 2) (show (1 : ℝ) ≠ 0 by norm_num) ⟨2, 0, 0, 10⟩]
  have hA : compute_speed_profile [⟨2, 0, 0, 10⟩, ⟨1, 0, 0, 20⟩] ⟨0, 0, 1, 1⟩ 1
      .GAUSSIAN 0 1 = .ok [[[20]], [[10]]] := by
    unfold compute_speed_profile
    rw [hsf, hone]
  have hB : compute_speed_profile_first_encountered [⟨2, 0, 0, 10⟩, ⟨1, 0, 0, 20⟩]
      ⟨0, 0, 1, 1⟩ 1 .GAUSSIAN 0 1 = .ok [[[10]], [[20]]] := by
    unfold compute_speed_profile_first_encountered
    rw [hfe, htwo]
  refine ⟨hA, hB, ?_⟩
  rw [hA, hB]
  intro hcontra
  simp only [Except.ok.injEq, List.cons.injEq] at hcontra
  norm_num at hcontra

/-- Witness for C9: a concrete failing run (grid size zero) whose error is
the arange error rather than the speed-method error, and a concrete pair
of methods with equal outputs. -/
theorem C9_witness :
    (compute_speed_profile [] ⟨0, 0, 1, 1⟩ 0 .GAUSSIAN 0 1 =
      compute_speed_profile [] ⟨0, 0, 1, 1⟩ 0 .VORONOI 0 1) ∧
      PyError.arangeZeroStep ≠ PyError.speedMethodRejected SpeedMethod.GAUSSIAN := by
  have herr : compute_speed_profile [] ⟨0, 0, 1, 1⟩ 0 .GAUSSIAN 0 1 =
      .error .arangeZeroStep := by
    have hgz : get_grid_cells ⟨0, 0, 1, 1⟩ 0 = .error .arangeZeroStep := by
      unfold get_grid_cells
      rw [if_pos rfl]
    unfold compute_speed_profile compute_with_frames
    rw [hgz, error_bind]
  exact ⟨C9_speed_method_has_no_effect.1 [] ⟨0, 0, 1, 1⟩ 0 .GAUSSIAN .VORONOI 0 1,
    C9_speed_method_has_no_effect.2 [] ⟨0, 0, 1, 1⟩ 0 .GAUSSIAN 0 1 .arangeZeroStep
      herr SpeedMethod.GAUSSIAN⟩

end MadrasSpeedProfile
